import Mathlib

/-!
Verification of the `your_notes` note manager (src/src/index.ts).

The TypeScript classes `Note` and `NotesManager` are shallowly embedded:
- JS `Date` instants become `Nat` (milliseconds since epoch); the current
  instant is threaded explicitly as a `now`/time parameter where the source
  calls `new Date()`.
- The randomly generated id (`Math.random().toString(36).substr(2, 9)`) is
  threaded explicitly as a `freshId` parameter where the source calls
  `this.generateUniqueId()`.
- JS arrays used with `push`/`pop` become Lists with the TOP AT THE TAIL:
  `push x` is `l ++ [x]`, `pop` is `getLast?` plus `dropLast`, matching
  `Array.prototype.push`/`pop`.
- The loosely typed action records `{ action: 'addNote' | 'deleteNote',
  data: { note } }` (the only shapes the source ever constructs) become the
  closed inductive `Action`.
- File / localStorage persistence is modelled by its data flow: the notes
  serialize to flat records (JSON fields; `Date` round-trips through its ISO
  string exactly, hence `Nat` here), `saveToFile` concatenates the backend's
  existing records with the serialized notes, `loadFromFile` folds the
  records into the store, skipping ids already present.
-/

namespace YourNotes

structure Note where
  id : String
  title : String
  content : String
  createdAt : Nat
  updatedAt : Nat
deriving DecidableEq

/-- The `Note` constructor: `id || generateUniqueId()` (an empty string is
falsy in JS, so it is replaced as well), `createdAt || new Date()`,
`updatedAt || new Date()` (Date objects are always truthy, so a supplied
date is always kept). `now` is the creation instant, `freshId` the random
id drawn when none is supplied. -/
def Note.construct (title content : String) (optId : Option String)
    (optCreatedAt optUpdatedAt : Option Nat) (now : Nat) (freshId : String) : Note :=
  { id := match optId with
      | some i => if i = "" then freshId else i
      | none => freshId
    title := title
    content := content
    createdAt := optCreatedAt.getD now
    updatedAt := optUpdatedAt.getD now }

/-- `Note.update`: replaces title and content, sets `updatedAt` to the
current instant `now`; `id` and `createdAt` are untouched. -/
def Note.update (n : Note) (title content : String) (now : Nat) : Note :=
  { n with title := title, content := content, updatedAt := now }

/-- A sequence of `update` calls, each with its title, content and instant. -/
def Note.applyUpdates (n : Note) : List (String × String × Nat) → Note
  | [] => n
  | (t, c, w) :: rest => Note.applyUpdates (n.update t c w) rest

/-- The undo/redo log entries. The source pushes exactly two shapes:
`{ action: 'addNote', data: { note } }` and
`{ action: 'deleteNote', data: { note } }`. -/
inductive Action where
  | addNote (note : Note)
  | deleteNote (note : Note)
deriving DecidableEq

structure NotesManager where
  notes : List Note
  undoStack : List Action
  redoStack : List Action
deriving DecidableEq

/-- The `NotesManager` constructor: all three collections start empty. -/
def NotesManager.empty : NotesManager :=
  { notes := [], undoStack := [], redoStack := [] }

/-- `addNoteWithoutStacking(note)`: appends without touching the stacks. -/
def NotesManager.addNoteWithoutStacking (m : NotesManager) (note : Note) : NotesManager :=
  { m with notes := m.notes ++ [note] }

/-- `addNote(note)`: appends the note, pushes an `addNote` action, clears the
redo stack. There is no duplicate-id check in the source. -/
def NotesManager.addNote (m : NotesManager) (note : Note) : NotesManager :=
  { m with notes := m.notes ++ [note]
           undoStack := m.undoStack ++ [Action.addNote note]
           redoStack := [] }

/-- `getNoteById(noteId)`: first note with matching id, if any
(`Array.prototype.find`). -/
def NotesManager.getNoteById (m : NotesManager) (noteId : String) : Option Note :=
  m.notes.find? (fun note => note.id = noteId)

/-- `findIndex` + `splice(index, 1)` on a note list: removes the FIRST note
whose id matches, returning it together with the remaining list; `none` when
no note matches (`findIndex` returned `-1`). -/
def findRemoveFirst (noteId : String) : List Note → Option (Note × List Note)
  | [] => none
  | n :: rest =>
    if n.id = noteId then some (n, rest)
    else match findRemoveFirst noteId rest with
      | none => none
      | some (d, rest2) => some (d, n :: rest2)

/-- `deleteNoteById(noteId)`: if a note with the id exists, removes the first
match, pushes a `deleteNote` action holding the removed note, clears the redo
stack; otherwise the store is untouched. -/
def NotesManager.deleteNoteById (m : NotesManager) (noteId : String) : NotesManager :=
  match findRemoveFirst noteId m.notes with
  | none => m
  | some (deletedNote, rest) =>
    { m with notes := rest
             undoStack := m.undoStack ++ [Action.deleteNote deletedNote]
             redoStack := [] }

/-- `undo()`: pops the undo stack; on an `addNote` entry it runs
`this.notes.pop()` (dropping the LAST note, whichever it is), on a
`deleteNote` entry it pushes the snapshotted note back; the popped action is
pushed onto the redo stack. Empty stack: no-op. -/
def NotesManager.undo (m : NotesManager) : NotesManager :=
  match m.undoStack.getLast? with
  | none => m
  | some lastAction =>
    let m1 : NotesManager := { m with undoStack := m.undoStack.dropLast }
    let m2 : NotesManager :=
      match lastAction with
      | Action.addNote _ => { m1 with notes := m1.notes.dropLast }
      | Action.deleteNote note => { m1 with notes := m1.notes ++ [note] }
    { m2 with redoStack := m2.redoStack ++ [lastAction] }

/-- `redo()`: pops the redo stack; an `addNote` entry is re-applied by a bare
`this.notes.push(note)`, but a `deleteNote` entry is re-applied by calling
the RECORDING `this.deleteNoteById(note.id)`; the popped action is then
pushed onto the undo stack. Empty stack: no-op. -/
def NotesManager.redo (m : NotesManager) : NotesManager :=
  match m.redoStack.getLast? with
  | none => m
  | some lastUndoAction =>
    let m1 : NotesManager := { m with redoStack := m.redoStack.dropLast }
    let m2 : NotesManager :=
      match lastUndoAction with
      | Action.addNote note => { m1 with notes := m1.notes ++ [note] }
      | Action.deleteNote note => m1.deleteNoteById note.id
    { m2 with undoStack := m2.undoStack ++ [lastUndoAction] }

/-- One flat persisted record: the JSON object written for a note. String
fields are stored verbatim; the `Date` fields round-trip exactly through
their ISO strings, kept as `Nat` here. -/
structure NoteRecord where
  id : String
  title : String
  content : String
  createdAt : Nat
  updatedAt : Nat
deriving DecidableEq

def serializeNote (n : Note) : NoteRecord :=
  { id := n.id, title := n.title, content := n.content
    createdAt := n.createdAt, updatedAt := n.updatedAt }

/-- `saveToFile`: reads the backend's existing records (empty when the file
is missing or unparsable), concatenates the store's serialized notes after
them, and writes the result. Returns the written records. -/
def NotesManager.saveToFile (existingRecords : List NoteRecord) (m : NotesManager) :
    List NoteRecord :=
  existingRecords ++ m.notes.map serializeNote

/-- One iteration of the `loadFromFile` loop: skip the record if
`getNoteById` already finds its id, otherwise construct a `Note` from the
record's fields (through the `Note` constructor, so a fresh random id —
`freshId` — would replace an empty stored id) and push it directly onto
`notes`. -/
def NotesManager.loadOne (m : NotesManager) (r : NoteRecord) (freshId : String) :
    NotesManager :=
  match m.getNoteById r.id with
  | some _ => m
  | none =>
    { m with notes := m.notes ++
        [Note.construct r.title r.content (some r.id) (some r.createdAt)
          (some r.updatedAt) 0 freshId] }

/-- `loadFromFile`: folds the parsed records into the live store, each with
the random id that would be drawn if its stored id were empty. -/
def NotesManager.loadFromFile (m : NotesManager) :
    List (NoteRecord × String) → NotesManager
  | [] => m
  | (r, freshId) :: rest => NotesManager.loadFromFile (m.loadOne r freshId) rest

/-- Spec-side description of the retrieve merge, written from the spec's
words: incoming notes are merged left to right into the existing collection,
"skipping any whose id already exists locally". Used to compare the
implementation's `loadFromFile` against the specified merge. -/
def mergeNotes (existing : List Note) : List Note → List Note
  | [] => existing
  | n :: rest =>
    if (existing.find? (fun e => e.id = n.id)).isSome then mergeNotes existing rest
    else mergeNotes (existing ++ [n]) rest

/- Concrete notes used by counterexamples and witnesses. -/

def noteA : Note :=
  { id := "a", title := "Groceries", content := "milk, eggs", createdAt := 0, updatedAt := 0 }

def noteB : Note :=
  { id := "b", title := "Second", content := "more", createdAt := 1, updatedAt := 1 }

def noteA2 : Note :=
  { id := "a", title := "Duplicate", content := "same id", createdAt := 2, updatedAt := 2 }

/-- A store in which the last note does not match the `addNote` entry on top
of the undo stack: `add A; add B; delete A; undo` leaves `notes = [B, A]`
with `addNote B` on top of the undo stack. -/
def c5State : NotesManager :=
  (((NotesManager.empty.addNote noteA).addNote noteB).deleteNoteById "a").undo

/-- A store with a non-empty redo stack and note A present:
`add A; delete A; undo` leaves `notes = [A]`, `redoStack = [deleteNote A]`. -/
def c6State : NotesManager :=
  ((NotesManager.empty.addNote noteA).deleteNoteById "a").undo

/-- The store of the spec's scenario after `add A; deleteById A.id; undo;
undo`: `notes = []`, `redoStack = [deleteNote A, addNote A]` (top at tail). -/
def c3State : NotesManager :=
  ((NotesManager.empty.addNote noteA).deleteNoteById "a").undo.undo

/-- A reachable store whose redo stack holds two entries,
`[addNote B, deleteNote A]` (top at tail), with note A present:
`add A; delete A; add B; undo; undo`. -/
def c2State : NotesManager :=
  (((NotesManager.empty.addNote noteA).deleteNoteById "a").addNote noteB).undo.undo

/-- After `add A; deleteById "a"; add B; undo; undo; undo` the store is fully
unwound: `notes = []`, `undoStack = []`,
`redoStack = [addNote B, deleteNote A, addNote A]`. -/
def c1Mid : NotesManager :=
  ((((NotesManager.empty.addNote noteA).deleteNoteById "a").addNote noteB).undo.undo).undo

/-- The same run after the three redo() calls that should replay the
sequence and end with `notes = [B]`. -/
def c1Final : NotesManager := c1Mid.redo.redo.redo

def noteX : Note :=
  { id := "x", title := "Start", content := "pre-existing", createdAt := 0, updatedAt := 0 }

/-- A starting store already holding note X, with empty stacks. -/
def c1StartX : NotesManager := { notes := [noteX], undoStack := [], redoStack := [] }

/-- From `c1StartX`: `add A; deleteById "x"; undo; undo` — the undo of the
`addNote A` entry pops the re-added X instead of A. -/
def c1XFinal : NotesManager := ((c1StartX.addNote noteA).deleteNoteById "x").undo.undo

/-- The note a persisted record denotes: all five fields verbatim. Equals
what the `loadFromFile` constructor call produces whenever the stored id is
non-empty. -/
def recordToNote (r : NoteRecord) : Note :=
  { id := r.id, title := r.title, content := r.content
    createdAt := r.createdAt, updatedAt := r.updatedAt }

/-- A note whose id is the empty string — falsy in JS, so the Note
constructor would replace it with a fresh random id. Reachable:
`Math.random().toString(36).substr(2, 9)` is `""` when `Math.random()`
returns 0, which ECMAScript permits. -/
def noteEmptyId : Note :=
  { id := "", title := "Empty", content := "falsy id", createdAt := 0, updatedAt := 0 }

/-- A store holding only the empty-id note, with empty stacks. -/
def c8Store : NotesManager := { notes := [noteEmptyId], undoStack := [], redoStack := [] }

/-- First helper for C10: `findIndex` + `splice` removes exactly the first
match. If every note before `n` has a different id and `n` matches, the
removal returns `n` and the concatenation of the surroundings. -/
theorem findRemoveFirst_append (noteId : String) (pre post : List Note) (n : Note)
    (hpre : ∀ p ∈ pre, p.id ≠ noteId) (hn : n.id = noteId) :
    findRemoveFirst noteId (pre ++ n :: post) = some (n, pre ++ post) := by
  induction pre with
  | nil => simp [findRemoveFirst, hn]
  | cons p ps ih =>
    have hp : p.id ≠ noteId := hpre p (List.mem_cons_self p ps)
    have ih2 := ih (fun q hq => hpre q (List.mem_cons_of_mem p hq))
    simp [findRemoveFirst, if_neg hp, ih2]

/-- C9: undo() on an empty undo stack and redo() on an empty redo stack
leave the notes and both stacks unchanged; neither raises a fault (both are
total functions returning the store itself). -/
theorem undo_redo_empty_stack_noop (m : NotesManager) :
    (m.undoStack = [] → m.undo = m) ∧ (m.redoStack = [] → m.redo = m) := by
  constructor
  · intro h
    unfold NotesManager.undo
    rw [h]
    rfl
  · intro h
    unfold NotesManager.redo
    rw [h]
    rfl

/-- C9 witness: the empty store is fixed by both undo() and redo(). -/
theorem undo_redo_empty_stack_noop_witness :
    NotesManager.empty.undo = NotesManager.empty ∧
    NotesManager.empty.redo = NotesManager.empty :=
  ⟨(undo_redo_empty_stack_noop NotesManager.empty).1 rfl,
   (undo_redo_empty_stack_noop NotesManager.empty).2 rfl⟩

/-- C10: when the notes list splits as `pre ++ n :: post` with no note of
`pre` matching the id and `n` matching (covering in particular lists holding
several notes with the same id, reachable because addNote never checks),
deleteNoteById removes exactly `n` — the first match — and every later note,
including any later duplicate of the id, survives in `post`. -/
theorem deleteNoteById_removes_first_match (m : NotesManager)
    (pre post : List Note) (n : Note) (noteId : String)
    (hsplit : m.notes = pre ++ n :: post)
    (hpre : ∀ p ∈ pre, p.id ≠ noteId)
    (hn : n.id = noteId) :
    m.deleteNoteById noteId =
      { notes := pre ++ post
        undoStack := m.undoStack ++ [Action.deleteNote n]
        redoStack := [] } ∧
    ∀ q ∈ post, q ∈ (m.deleteNoteById noteId).notes := by
  have hfind : findRemoveFirst noteId m.notes = some (n, pre ++ post) := by
    rw [hsplit]
    exact findRemoveFirst_append noteId pre post n hpre hn
  have hdel : m.deleteNoteById noteId =
      { notes := pre ++ post
        undoStack := m.undoStack ++ [Action.deleteNote n]
        redoStack := [] } := by
    unfold NotesManager.deleteNoteById
    rw [hfind]
  refine ⟨hdel, fun q hq => ?_⟩
  rw [hdel]
  exact List.mem_append_right pre hq

/-- C10 witness: in a store holding two notes with id "a" (built with the
checkless addNote), deleting "a" removes only the first; the later duplicate
remains. -/
theorem deleteNoteById_removes_first_match_witness :
    ((NotesManager.empty.addNote noteA).addNote noteA2).deleteNoteById "a" =
      { notes := [noteA2]
        undoStack := [Action.addNote noteA, Action.addNote noteA2,
          Action.deleteNote noteA]
        redoStack := [] } ∧
    noteA2 ∈ (((NotesManager.empty.addNote noteA).addNote noteA2).deleteNoteById "a").notes := by
  have h := deleteNoteById_removes_first_match
    ((NotesManager.empty.addNote noteA).addNote noteA2)
    [] [noteA2] noteA "a" (by decide) (by intro p hp; cases hp) (by decide)
  exact ⟨h.1, h.2 noteA2 (List.mem_cons_self noteA2 [])⟩

/-- C4 counterexample: adding a second note whose id "a" is already present
succeeds exactly like any other add — the note is appended — contradicting
"add(note) fails with DuplicateIdError ... succeeds exactly when the id is
not already present". -/
theorem c4_duplicate_add_succeeds :
    noteA2.id ∈ (NotesManager.empty.addNote noteA).notes.map Note.id ∧
    ((NotesManager.empty.addNote noteA).addNote noteA2).notes = [noteA, noteA2] := by
  decide

/-- C4 (amended): addNote never fails: for every store and note — including
when the note's id is already present — it appends the note, pushes an
addNote action, and clears the redo stack; adding a present id therefore
leaves the id column with a duplicate. -/
theorem addNote_always_succeeds (m : NotesManager) (note : Note) :
    (m.addNote note).notes = m.notes ++ [note] ∧
    (m.addNote note).undoStack = m.undoStack ++ [Action.addNote note] ∧
    (m.addNote note).redoStack = [] ∧
    (note.id ∈ m.notes.map Note.id →
      ¬ ((m.addNote note).notes.map Note.id).Nodup) := by
  refine ⟨rfl, rfl, rfl, fun hmem hnodup => ?_⟩
  rw [show (m.addNote note).notes = m.notes ++ [note] from rfl, List.map_append] at hnodup
  rcases List.nodup_append.mp hnodup with ⟨-, -, hdisj⟩
  exact hdisj hmem (by simp)

/-- C4 witness: instantiating the amended theorem on the duplicate pair
shows the resulting id column is not duplicate-free. -/
theorem addNote_always_succeeds_witness :
    ¬ ((((NotesManager.empty.addNote noteA).addNote noteA2).notes.map Note.id).Nodup) :=
  (addNote_always_succeeds (NotesManager.empty.addNote noteA) noteA2).2.2.2 (by decide)

/-- C5 counterexample: in `c5State` the top undo entry is `addNote B`, yet
undo() leaves `[B]` — it popped the LAST note (A, id "a") instead of removing
the note with id "b", contradicting "removes the note whose id equals
note.id". -/
theorem c5_undo_pops_wrong_note :
    c5State.undoStack.getLast? = some (Action.addNote noteB) ∧
    c5State.undo.notes = [noteB] ∧
    noteB ∈ c5State.undo.notes ∧
    c5State.undo.notes ≠ [noteA] := by decide

/-- C5 (amended): when the top undo entry is `addNote note`, undo() drops the
LAST note of the collection — whatever its id — and pushes the popped action
unchanged onto the redo stack. -/
theorem undo_addNote_pops_last (m : NotesManager) (note : Note)
    (h : m.undoStack.getLast? = some (Action.addNote note)) :
    m.undo =
      { notes := m.notes.dropLast
        undoStack := m.undoStack.dropLast
        redoStack := m.redoStack ++ [Action.addNote note] } := by
  unfold NotesManager.undo
  rw [h]

/-- C5 witness: the amended theorem applied to `c5State`. -/
theorem undo_addNote_pops_last_witness :
    c5State.undo =
      { notes := c5State.notes.dropLast
        undoStack := c5State.undoStack.dropLast
        redoStack := c5State.redoStack ++ [Action.addNote noteB] } :=
  undo_addNote_pops_last c5State noteB (by decide)

/-- C6 counterexample: `c6State` has a pending redo entry; `deleteNoteById`
of the absent id "zzz" leaves the redo stack untouched, and the subsequent
redo() is NOT a no-op — contradicting "any deleteById call (with any
argument) leaves redoStack empty". -/
theorem c6_missing_delete_keeps_redo :
    c6State.redoStack = [Action.deleteNote noteA] ∧
    (c6State.deleteNoteById "zzz").redoStack = [Action.deleteNote noteA] ∧
    (c6State.deleteNoteById "zzz").redo ≠ c6State.deleteNoteById "zzz" := by decide

/-- C6 (amended): with a pending redo history, any addNote clears the redo
stack, and so does any deleteNoteById whose id is present; a deleteNoteById
of an absent id, however, leaves the whole store — redo stack included —
unchanged. -/
theorem mutators_clear_redo (m : NotesManager) (note : Note) (noteId : String)
    (_hredo : m.redoStack ≠ []) :
    (m.addNote note).redoStack = [] ∧
    ((∃ d rest, findRemoveFirst noteId m.notes = some (d, rest)) →
      (m.deleteNoteById noteId).redoStack = []) ∧
    (findRemoveFirst noteId m.notes = none → m.deleteNoteById noteId = m) := by
  refine ⟨rfl, fun ⟨d, rest, hfind⟩ => ?_, fun hnone => ?_⟩
  · unfold NotesManager.deleteNoteById
    rw [hfind]
  · unfold NotesManager.deleteNoteById
    rw [hnone]

/-- C6 witness: on `c6State` (pending redo, note A present): adding clears
the redo stack, deleting the present id "a" clears it, deleting the absent
id "zzz" changes nothing. -/
theorem mutators_clear_redo_witness :
    (c6State.addNote noteB).redoStack = [] ∧
    (c6State.deleteNoteById "a").redoStack = [] ∧
    c6State.deleteNoteById "zzz" = c6State := by
  have h := mutators_clear_redo c6State noteB "a" (by decide)
  have h2 := mutators_clear_redo c6State noteB "zzz" (by decide)
  exact ⟨h.1, h.2.1 ⟨noteA, [], by decide⟩, h2.2.2 (by decide)⟩

/-- C3 counterexample: after `add A; deleteById "a"; undo; undo`, the first
redo() does NOT leave the list empty (it re-applies the add), and the second
redo() does NOT make the list contain A (it re-applies the delete) — the
claim's replay order is reversed. -/
theorem c3_redo_order_counterexample :
    ¬ (c3State.redo.notes = [] ∧ noteA ∈ c3State.redo.redo.notes) := by decide

/-- C3 (amended): the redo stack pops most-recent-undone first, so the first
redo() re-applies the ADD and list() contains A, and the second redo()
re-applies the DELETION and list() is empty. -/
theorem c3_redo_replays_forward :
    c3State.redo.notes = [noteA] ∧ c3State.redo.redo.notes = [] := by decide

/-- Helper: deleteNoteById when a first match exists. -/
theorem deleteNoteById_found (m : NotesManager) (noteId : String) (d : Note)
    (rest : List Note)
    (hfind : findRemoveFirst noteId m.notes = some (d, rest)) :
    m.deleteNoteById noteId =
      { notes := rest
        undoStack := m.undoStack ++ [Action.deleteNote d]
        redoStack := [] } := by
  unfold NotesManager.deleteNoteById
  rw [hfind]

/-- Helper: deleteNoteById of an id with no match is the identity. -/
theorem deleteNoteById_missing (m : NotesManager) (noteId : String)
    (hnone : findRemoveFirst noteId m.notes = none) :
    m.deleteNoteById noteId = m := by
  unfold NotesManager.deleteNoteById
  rw [hnone]

/-- C2 counterexample: in `c2State` (redo stack `[addNote B, deleteNote A]`,
note A present) redo() pops `deleteNote A` but re-applies it through the
recording deleteNoteById: the remaining entry `addNote B` is wiped from the
redo stack and TWO entries land on the undo stack — contradicting "pushes
exactly one entry ... never recording a fresh Action or clearing the
remaining redo history". -/
theorem c2_redo_counterexample :
    c2State.redoStack.getLast? = some (Action.deleteNote noteA) ∧
    c2State.redo.redoStack = [] ∧
    c2State.redo.redoStack ≠ c2State.redoStack.dropLast ∧
    c2State.redo.undoStack ≠ c2State.undoStack ++ [Action.deleteNote noteA] := by
  decide

/-- C2 (amended): redo() pops the top action and pushes it onto the undo
stack; an `addNote` entry is re-applied silently and exactly one entry moves
between the stacks, but a `deleteNote` entry is re-applied through the
RECORDING deleteNoteById, so when the id is present a fresh `deleteNote`
action is pushed as well (two undo entries) and the remaining redo history
is cleared; when the id is absent the deletion is a no-op and only the
popped entry moves. -/
theorem redo_exact (m : NotesManager) (note d : Note) (rest : List Note) :
    (m.redoStack.getLast? = some (Action.addNote note) →
      m.redo =
        { notes := m.notes ++ [note]
          undoStack := m.undoStack ++ [Action.addNote note]
          redoStack := m.redoStack.dropLast }) ∧
    (m.redoStack.getLast? = some (Action.deleteNote note) →
      findRemoveFirst note.id m.notes = some (d, rest) →
      m.redo =
        { notes := rest
          undoStack := m.undoStack ++ [Action.deleteNote d, Action.deleteNote note]
          redoStack := [] }) ∧
    (m.redoStack.getLast? = some (Action.deleteNote note) →
      findRemoveFirst note.id m.notes = none →
      m.redo =
        { notes := m.notes
          undoStack := m.undoStack ++ [Action.deleteNote note]
          redoStack := m.redoStack.dropLast }) := by
  refine ⟨fun h => ?_, fun h hfind => ?_, fun h hnone => ?_⟩
  · unfold NotesManager.redo
    rw [h]
  · have hd := deleteNoteById_found
      { m with redoStack := m.redoStack.dropLast } note.id d rest hfind
    simp only [NotesManager.redo, h]
    rw [hd]
    simp [List.append_assoc]
  · have hd := deleteNoteById_missing
      { m with redoStack := m.redoStack.dropLast } note.id hnone
    simp only [NotesManager.redo, h]
    rw [hd]

/-- C2 witness: the amended theorem applied to `c2State`: its redo() empties
the redo stack and appends two `deleteNote A` entries to the undo stack. -/
theorem redo_exact_witness :
    c2State.redo =
      { notes := []
        undoStack := c2State.undoStack ++
          [Action.deleteNote noteA, Action.deleteNote noteA]
        redoStack := [] } :=
  (redo_exact c2State noteA noteA []).2.1 (by decide) (by decide)

/-- C1: the undo/redo round trip fails on the code in both directions.
Replay: from the empty store, after `add A; deleteById "a"; add B` and three
undos (which do restore the empty collection), the three redos end with
`notes = []` instead of `[B]`: the second redo re-applied the deletion via
the recording deleteNoteById, which cleared the pending `addNote B` redo
entry, so the third redo was a no-op. Restore: from a store already holding
X, after `add A; deleteById "x"` and two undos the collection is `[A]`, not
the pre-sequence `[X]`: the undo of `addNote A` popped the last note (the
re-added X) instead of removing A. -/
theorem c1_undo_redo_round_trip_fails :
    (c1Mid.notes = [] ∧ c1Mid.undoStack = []) ∧
    (c1Final.notes = [] ∧ noteB ∉ c1Final.notes) ∧
    (c1XFinal.undoStack = [] ∧ c1XFinal.notes = [noteA] ∧
      c1XFinal.notes ≠ c1StartX.notes) := by decide

/-- C7 counterexample: the constructor accepts any supplied timestamps, so a
note built with `createdAt = 5`, `updatedAt = 3` violates
`updatedAt >= createdAt` from the moment it is constructed. -/
theorem c7_supplied_timestamps_counterexample :
    (Note.construct "t" "c" (some "x") (some 5) (some 3) 0 "fresh").updatedAt <
      (Note.construct "t" "c" (some "x") (some 5) (some 3) 0 "fresh").createdAt := by
  decide

/-- C7 (amended): a note constructed with both timestamps omitted has
`createdAt = updatedAt = now`, hence satisfies the invariant; and for any
note already satisfying `createdAt <= updatedAt`, any sequence of update
calls whose instants are all at or after `createdAt` keeps `createdAt`
unchanged and preserves the invariant. Supplied construction timestamps with
`updatedAt < createdAt` are the only way to break it. -/
theorem note_invariant_amended (title content : String) (optId : Option String)
    (now : Nat) (freshId : String) (n : Note)
    (updates : List (String × String × Nat))
    (hinv : n.createdAt ≤ n.updatedAt)
    (hts : ∀ u ∈ updates, n.createdAt ≤ u.2.2) :
    ((Note.construct title content optId none none now freshId).createdAt ≤
      (Note.construct title content optId none none now freshId).updatedAt) ∧
    (n.applyUpdates updates).createdAt = n.createdAt ∧
    (n.applyUpdates updates).createdAt ≤ (n.applyUpdates updates).updatedAt := by
  refine ⟨le_refl _, ?_⟩
  induction updates generalizing n with
  | nil => exact ⟨rfl, hinv⟩
  | cons u rest ih =>
    obtain ⟨t, c, w⟩ := u
    have hw : n.createdAt ≤ w := hts (t, c, w) (List.mem_cons_self _ _)
    have step := ih (n.update t c w) hw
      (fun v hv => hts v (List.mem_cons_of_mem _ hv))
    exact ⟨step.1, step.2⟩

/-- C7 witness: a default-constructed note satisfies the invariant, and a
concrete note with `createdAt = updatedAt = 0` updated at instants 5 then 2
still satisfies it. -/
theorem note_invariant_amended_witness :
    ((Note.construct "t" "c" none none none 7 "fresh").createdAt ≤
      (Note.construct "t" "c" none none none 7 "fresh").updatedAt) ∧
    (noteA.applyUpdates [("u", "v", 5), ("w", "z", 2)]).createdAt ≤
      (noteA.applyUpdates [("u", "v", 5), ("w", "z", 2)]).updatedAt := by
  have h := note_invariant_amended "t" "c" none 7 "fresh" noteA
    [("u", "v", 5), ("w", "z", 2)] (by decide) (by decide)
  exact ⟨h.1, h.2.2⟩

/-- The constructor call made by the `loadFromFile` loop reproduces the
record's five fields verbatim whenever the stored id is non-empty (an empty
id would be falsy in JS and replaced by a fresh random one). -/
theorem construct_of_record (r : NoteRecord) (freshId : String) (hid : r.id ≠ "") :
    Note.construct r.title r.content (some r.id) (some r.createdAt)
      (some r.updatedAt) 0 freshId = recordToNote r := by
  unfold Note.construct recordToNote
  simp [hid]

/-- The load loop only ever appends to `notes` and never touches the stacks:
its result is the spec's left-to-right skip-if-present merge. -/
theorem loadFromFile_merges (ps : List (NoteRecord × String)) (m : NotesManager)
    (hids : ∀ p ∈ ps, p.1.id ≠ "") :
    m.loadFromFile ps =
      { m with notes := mergeNotes m.notes (ps.map (fun p => recordToNote p.1)) } := by
  induction ps generalizing m with
  | nil => rfl
  | cons p rest ih =>
    obtain ⟨r, fid⟩ := p
    have hid : r.id ≠ "" := hids (r, fid) (List.mem_cons_self _ _)
    have hrest : ∀ q ∈ rest, q.1.id ≠ "" := fun q hq => hids q (List.mem_cons_of_mem _ hq)
    show (m.loadOne r fid).loadFromFile rest = _
    cases hfind : m.notes.find? (fun note => note.id = r.id) with
    | some w =>
      have hone : m.loadOne r fid = m := by
        unfold NotesManager.loadOne NotesManager.getNoteById
        rw [hfind]
      rw [hone, ih m hrest]
      simp [mergeNotes, recordToNote, hfind]
    | none =>
      have hone : m.loadOne r fid = { m with notes := m.notes ++ [recordToNote r] } := by
        unfold NotesManager.loadOne NotesManager.getNoteById
        rw [hfind, construct_of_record r fid hid]
      rw [hone, ih _ hrest]
      simp [mergeNotes, recordToNote, hfind]

/-- Notes already in the collection survive the merge. -/
theorem mem_mergeNotes_left (L : List Note) (E : List Note) (e : Note) (he : e ∈ E) :
    e ∈ mergeNotes E L := by
  induction L generalizing E with
  | nil => simpa [mergeNotes] using he
  | cons n rest ih =>
    cases hfind : E.find? (fun x => x.id = n.id) with
    | some w => simpa [mergeNotes, hfind] using ih E he
    | none =>
      simpa [mergeNotes, hfind] using ih (E ++ [n]) (List.mem_append_left _ he)

/-- Every incoming id is represented in the merged collection. -/
theorem mergeNotes_covers (L E : List Note) (n : Note) (hn : n ∈ L) :
    ∃ e ∈ mergeNotes E L, e.id = n.id := by
  induction L generalizing E with
  | nil => cases hn
  | cons h rest ih =>
    cases hfind : E.find? (fun x => x.id = h.id) with
    | some w =>
      rcases List.mem_cons.mp hn with rfl | hmem
      · refine ⟨w, ?_, ?_⟩
        · simpa [mergeNotes, hfind] using
            mem_mergeNotes_left rest E w (List.mem_of_find?_eq_some hfind)
        · simpa using List.find?_some hfind
      · obtain ⟨e, hemem, heq⟩ := ih E hmem
        exact ⟨e, by simpa [mergeNotes, hfind] using hemem, heq⟩
    | none =>
      rcases List.mem_cons.mp hn with rfl | hmem
      · refine ⟨n, ?_, rfl⟩
        simpa [mergeNotes, hfind] using
          mem_mergeNotes_left rest (E ++ [n]) n (List.mem_append_right _ (by simp))
      · obtain ⟨e, hemem, heq⟩ := ih (E ++ [h]) hmem
        exact ⟨e, by simpa [mergeNotes, hfind] using hemem, heq⟩

/-- When the combined id column is duplicate-free the merge degenerates to
plain concatenation: nothing is skipped, order preserved. -/
theorem mergeNotes_of_nodup (L E : List Note)
    (hnodup : ((E ++ L).map Note.id).Nodup) :
    mergeNotes E L = E ++ L := by
  induction L generalizing E with
  | nil => simp [mergeNotes]
  | cons n rest ih =>
    have hnotin : n.id ∉ E.map Note.id := by
      rw [List.map_append] at hnodup
      rcases List.nodup_append.mp hnodup with ⟨-, -, hdisj⟩
      intro hmem
      exact hdisj hmem (by simp)
    have hfind : E.find? (fun e => e.id = n.id) = none := by
      rw [List.find?_eq_none]
      intro e he heq
      exact hnotin (by
        simp only [decide_eq_true_eq] at heq
        exact heq ▸ List.mem_map_of_mem Note.id he)
    have hre : (E ++ n :: rest) = (E ++ [n]) ++ rest := List.append_cons E n rest
    have ih2 := ih (E ++ [n]) (by rw [← hre]; exact hnodup)
    simp [mergeNotes, hfind, ih2, ← hre]

/-- Loading records whose ids are all already present changes nothing. -/
theorem loadFromFile_all_present (ps : List (NoteRecord × String)) (m : NotesManager)
    (hpres : ∀ p ∈ ps, ∃ e ∈ m.notes, e.id = p.1.id) :
    m.loadFromFile ps = m := by
  induction ps generalizing m with
  | nil => rfl
  | cons p rest ih =>
    obtain ⟨r, fid⟩ := p
    obtain ⟨e, hmem, heq⟩ := hpres (r, fid) (List.mem_cons_self _ _)
    have hfind : (m.notes.find? (fun note => note.id = r.id)).isSome := by
      rw [List.find?_isSome]
      exact ⟨e, hmem, by simp [heq]⟩
    obtain ⟨w, hw⟩ := Option.isSome_iff_exists.mp hfind
    have hone : m.loadOne r fid = m := by
      unfold NotesManager.loadOne NotesManager.getNoteById
      rw [hw]
    show (m.loadOne r fid).loadFromFile rest = m
    rw [hone]
    exact ih m (fun q hq => hpres q (List.mem_cons_of_mem _ hq))

/-- C8 counterexample: a store holding a note whose id is the empty string
does NOT round-trip. The persisted record stores id `""`; on load the Note
constructor sees the falsy id and substitutes the fresh random draw (here
"fresh9"), so the reproduced note's id field differs from the saved one —
refuting "reproduces every field (id, ...) of every note exactly" for every
store. -/
theorem c8_empty_id_not_reproduced :
    ((NotesManager.empty.loadFromFile
        ((c8Store.saveToFile []).map (fun r => (r, "fresh9")))).notes.map Note.id
      = ["fresh9"]) ∧
    (NotesManager.empty.loadFromFile
        ((c8Store.saveToFile []).map (fun r => (r, "fresh9")))).notes ≠ c8Store.notes := by
  decide

/-- C8 (amended): persist then retrieve into a fresh store. With every id non-empty
(ids are JS-truthy strings), loading the freshly persisted records into the
empty store produces exactly the spec's skip-if-present merge of the saved
notes — every field of every kept note verbatim; when the saved ids are
duplicate-free nothing is skipped and the collection is reproduced exactly;
and loading the same records a second time changes nothing (idempotent per
id, never overwriting). -/
theorem save_load_round_trip (S : NotesManager)
    (hids : ∀ n ∈ S.notes, n.id ≠ "") :
    ((NotesManager.empty.loadFromFile
        ((S.saveToFile []).map (fun r => (r, "")))).notes
      = mergeNotes [] S.notes) ∧
    ((S.notes.map Note.id).Nodup →
      (NotesManager.empty.loadFromFile
          ((S.saveToFile []).map (fun r => (r, "")))).notes
        = S.notes) ∧
    ((NotesManager.empty.loadFromFile
        ((S.saveToFile []).map (fun r => (r, "")))).loadFromFile
          ((S.saveToFile []).map (fun r => (r, "")))
      = NotesManager.empty.loadFromFile
          ((S.saveToFile []).map (fun r => (r, "")))) := by
  have hp : ∀ p ∈ (S.saveToFile []).map (fun r => (r, "")), p.1.id ≠ "" := by
    intro p hp
    simp only [NotesManager.saveToFile, List.nil_append, List.map_map,
      List.mem_map] at hp
    obtain ⟨n, hn, rfl⟩ := hp
    exact hids n hn
  have hmap : ((S.saveToFile []).map (fun r => (r, ""))).map
      (fun p => recordToNote p.1) = S.notes := by
    simp only [NotesManager.saveToFile, List.nil_append, List.map_map]
    exact List.map_id S.notes
  have hload := loadFromFile_merges ((S.saveToFile []).map (fun r => (r, "")))
    NotesManager.empty hp
  have h1 : (NotesManager.empty.loadFromFile
      ((S.saveToFile []).map (fun r => (r, "")))).notes = mergeNotes [] S.notes := by
    rw [hload, hmap]
    rfl
  refine ⟨h1, fun hnodup => ?_, ?_⟩
  · rw [h1, mergeNotes_of_nodup S.notes [] (by simpa using hnodup)]
    simp
  · apply loadFromFile_all_present
    intro p hpmem
    rw [h1]
    simp only [NotesManager.saveToFile, List.nil_append, List.map_map,
      List.mem_map] at hpmem
    obtain ⟨n, hn, rfl⟩ := hpmem
    exact mergeNotes_covers S.notes [] n hn

/-- C8 witness: a store holding A then B (distinct ids) persists to an empty
backend and loads back into the empty store as exactly `[A, B]`. -/
theorem save_load_round_trip_witness :
    (NotesManager.empty.loadFromFile
        ((((NotesManager.empty.addNote noteA).addNote noteB).saveToFile []).map
          (fun r => (r, "")))).notes = [noteA, noteB] :=
  (save_load_round_trip ((NotesManager.empty.addNote noteA).addNote noteB)
    (by decide)).2.1 (by decide)

end YourNotes
